import Mathlib

/-!
Verification development for the GitHub repository analyzer (src/main.py).

The claims concern three code regions:
* `GitHubAPI.fetch_commit_activity` (lines 106-132): normalization of the raw
  weekly-activity payload and the raw commit page into the in-memory dataset;
* `DataProcessor.calculate_statistics` (lines 145-165): descriptive statistics
  and the recent-activity trend label;
* `DataProcessor.prepare_dataframe_for_export` (lines 167-199): flattening of
  metadata, contributors and commit history into export rows.

Embedding conventions:
* numpy floats over the integer commit counts are modelled as exact rationals;
* `datetime` values are records of calendar fields; `datetime.now()` is passed
  in explicitly as a clock indexed by the call number within one invocation;
* Python exceptions escaping a computation are modelled as `Except` errors:
  `malformedActivity` stands for the `KeyError`/`TypeError` raised while
  summing weekly totals (a missing or non-numeric `"total"`), `emptyDataset`
  for the `ValueError` raised by `max()`/`min()` on an empty series;
* `np.mean` of an empty list is NaN in the source; every comparison against
  NaN is `False`.  This is modelled by `npMeanOpt`/`gtNaN` below.
-/

namespace GHA

/-- A calendar timestamp as produced by `datetime.strptime` and consumed by
`strftime`: year, month, day, hour, minute, second. -/
structure Date where
  year : ℕ
  month : ℕ
  day : ℕ
  hour : ℕ
  minute : ℕ
  second : ℕ
deriving DecidableEq

instance : Inhabited Date := ⟨⟨1, 1, 1, 0, 0, 0⟩⟩

/-- Gregorian leap-year test, as used by `datetime` to validate day-of-month. -/
def isLeap (y : ℕ) : Bool := (y % 4 == 0 && y % 100 != 0) || y % 400 == 0

def daysInMonth (y m : ℕ) : ℕ :=
  if m = 2 then (if isLeap y then 29 else 28)
  else if m = 4 ∨ m = 6 ∨ m = 9 ∨ m = 11 then 30
  else 31

/-- Numeric value of two decimal digit characters, `none` if either is not a digit. -/
def d2n (a b : Char) : Option ℕ :=
  if a.isDigit && b.isDigit then some ((a.toNat - 48) * 10 + (b.toNat - 48)) else none

/-- Numeric value of four decimal digit characters. -/
def d4n (a b c d : Char) : Option ℕ :=
  match d2n a b, d2n c d with
  | some hi, some lo => some (hi * 100 + lo)
  | _, _ => none

/-- Field validation performed by the `datetime` constructor: an out-of-range
field raises `ValueError`, i.e. the parse fails. -/
def validDate (y mo dy h mi s : ℕ) : Bool :=
  decide (1 ≤ y) && decide (1 ≤ mo) && decide (mo ≤ 12) && decide (1 ≤ dy) &&
    decide (dy ≤ daysInMonth y mo) && decide (h ≤ 23) && decide (mi ≤ 59) &&
    decide (s ≤ 59)

/-- `datetime.strptime(s, '%Y-%m-%dT%H:%M:%SZ')` (src/main.py line 117) on the
fixed-width GitHub timestamp format: four year digits, two digits for each
other field, the literal separators, and nothing after the trailing `Z`;
calendar-invalid fields fail. -/
def parseTimestamp (s : String) : Option Date :=
  match s.data with
  | [y1, y2, y3, y4, c1, m1, m2, c2, e1, e2, c3, h1, h2, c4, n1, n2, c5, s1, s2, c6] =>
    if c1 = '-' ∧ c2 = '-' ∧ c3 = 'T' ∧ c4 = ':' ∧ c5 = ':' ∧ c6 = 'Z' then
      match d4n y1 y2 y3 y4, d2n m1 m2, d2n e1 e2, d2n h1 h2, d2n n1 n2, d2n s1 s2 with
      | some y, some mo, some dy, some h, some mi, some s =>
        if validDate y mo dy h mi s then some ⟨y, mo, dy, h, mi, s⟩ else none
      | _, _, _, _, _, _ => none
    else none
  | _ => none

/-- Zero-pad a number to two digits, as `strftime` does for `%m %d %H %M %S`. -/
def pad2 (n : ℕ) : String := if n < 10 then "0" ++ toString n else toString n

/-- Zero-pad a number to four digits, as `strftime` does for `%Y`. -/
def pad4 (n : ℕ) : String :=
  if n < 10 then "000" ++ toString n
  else if n < 100 then "00" ++ toString n
  else if n < 1000 then "0" ++ toString n
  else toString n

/-- `t.strftime('%Y-%m-%d %H:%M:%S')` (src/main.py lines 178, 187, 196). -/
def fmtDate (t : Date) : String :=
  pad4 t.year ++ "-" ++ pad2 t.month ++ "-" ++ pad2 t.day ++ " " ++
    pad2 t.hour ++ ":" ++ pad2 t.minute ++ ":" ++ pad2 t.second

/-- A JSON scalar found under the `"total"` key of a raw weekly record. -/
inductive JVal where
  | num (n : ℤ)
  | str (s : String)
  | null
deriving DecidableEq

/-- One raw weekly-activity record of the statistics endpoint: a week-start
epoch and the `"total"` value, `none` when the key is missing. -/
structure RawWeek where
  week : ℤ
  total : Option JVal
deriving DecidableEq

/-- One raw commit record of the commits endpoint, restricted to the fields the
source reads: `commit.author.date`, `commit.message`, `commit.author.name`,
`sha`. -/
structure RawCommit where
  date : String
  message : String
  author : String
  sha : String
deriving DecidableEq

/-- A normalized commit entry (src/main.py lines 118-123). -/
structure CommitRecord where
  date : Date
  message : String
  author : String
  sha : String
deriving DecidableEq

/-- The dictionary returned by `fetch_commit_activity` (src/main.py lines 127-132). -/
structure ActivityDataset where
  weekly_commits : ℤ
  activity_by_week : List RawWeek
  commit_history : List CommitRecord
  total_commits : ℕ
deriving DecidableEq

/-- Failure modes of normalization and statistics.  `malformedActivity` models
the `KeyError`/`TypeError` escaping `sum([week["total"] ...])` on a missing or
non-numeric total (caught at line 138, aborting the dataset build);
`emptyDataset` models the `ValueError` raised by `max()`/`min()` of an empty
series inside `calculate_statistics`. -/
inductive AnalyzerError where
  | malformedActivity
  | emptyDataset
deriving DecidableEq

/-- The stats dictionary built at src/main.py lines 151-163.  The source stores
`round(np.std(weekly_totals), 2)`; since the standard deviation is generally
irrational, the report here carries the exact square `std_sq` of the
pre-rounding standard deviation, and theorems about rounding quantify over the
nonnegative square root. -/
structure StatsReport where
  total_commits : ℕ
  avg_weekly : ℚ
  median_weekly : ℚ
  highest : ℤ
  lowest : ℤ
  std_sq : ℚ
  trend : String
deriving DecidableEq

/-- Whether a raw weekly record carries a numeric `"total"`. -/
def isNumTotal (w : RawWeek) : Bool :=
  match w.total with
  | some (.num _) => true
  | _ => false

/-- The totals extracted by `[week["total"] for week in activity_data]`
(src/main.py lines 111 and 149); the first missing or non-numeric total raises
and aborts. -/
def extractTotals : List RawWeek → Except AnalyzerError (List ℤ)
  | [] => .ok []
  | w :: ws =>
    match w.total with
    | some (.num n) => (extractTotals ws).map (fun ts => n :: ts)
    | _ => .error .malformedActivity

/-- The per-commit body of the loop at src/main.py lines 115-125: parse the
author timestamp, keep the message and author, truncate the SHA to 7
characters; a failing parse means the record is skipped (`except: continue`). -/
def parse_commit (c : RawCommit) : Option CommitRecord :=
  (parseTimestamp c.date).map
    (fun dt => ⟨dt, c.message, c.author, String.mk (c.sha.data.take 7)⟩)

/-- The response-processing part of `GitHubAPI.fetch_commit_activity`
(src/main.py lines 106-132), given the two decoded 200-responses: sums the
weekly totals (any bad total raises, caught at line 138 and turned into a
failed fetch), builds the commit history by best-effort parsing, and counts the
raw commit page before elision. -/
def fetch_commit_activity (raw_weekly : List RawWeek) (raw_commits : List RawCommit) :
    Except AnalyzerError ActivityDataset :=
  match extractTotals raw_weekly with
  | .error e => .error e
  | .ok totals =>
    .ok { weekly_commits := totals.sum
          activity_by_week := raw_weekly
          commit_history := raw_commits.filterMap parse_commit
          total_commits := raw_commits.length }

/-- The integer weekly totals as rationals, as numpy promotes the integer
series to floats. -/
def qcast (l : List ℤ) : List ℚ := l.map (fun n : ℤ => (n : ℚ))

/-- `np.mean` on a nonempty list: sum divided by length.  (On the empty list
numpy yields NaN; callers on a possibly-empty list use `npMeanOpt`.) -/
def npMean (l : List ℚ) : ℚ := l.sum / (l.length : ℚ)

/-- `np.mean` with the empty case made explicit: `none` models the NaN numpy
returns for a mean over an empty slice. -/
def npMeanOpt (l : List ℚ) : Option ℚ := if l = [] then none else some (npMean l)

/-- The comparison `x > m` where `m` may be NaN (`none`): any comparison
against NaN is `False` in IEEE semantics, which Python inherits. -/
def gtNaN (x : ℚ) : Option ℚ → Bool
  | none => false
  | some m => decide (m < x)

/-- `np.median`: middle element of the sorted data for odd length, average of
the two middle elements for even length. -/
def npMedian (l : List ℚ) : ℚ :=
  let s := l.insertionSort (· ≤ ·)
  if l.length % 2 = 1 then s.getD (l.length / 2) 0
  else (s.getD (l.length / 2 - 1) 0 + s.getD (l.length / 2) 0) / 2

/-- The square of `np.std` with the default `ddof=0`: the population variance,
mean of squared deviations from the mean. -/
def npVar (l : List ℚ) : ℚ := npMean (l.map (fun x => (x - npMean l) ^ 2))

/-- Python `max` over a list of integers; `max([])` raises `ValueError`, which
the caller surfaces as `emptyDataset`, so the `[]` branch here is unreachable
behind that guard. -/
def pyMax : List ℤ → ℤ
  | [] => 0
  | x :: xs => xs.foldl max x

/-- Python `min` over a list of integers; empty case as in `pyMax`. -/
def pyMin : List ℤ → ℤ
  | [] => 0
  | x :: xs => xs.foldl min x

/-- Python slice `l[-n:]`: the last `n` elements (all of them if fewer). -/
def takeLast (n : ℕ) (l : List ℚ) : List ℚ := l.drop (l.length - n)

/-- Python `l[-1]` on a nonempty list (the callers guarantee nonemptiness). -/
def pyLast (l : List ℚ) : ℚ := l.getLast?.getD 0

/-- Python banker's rounding of a rational to the nearest integer: round half
to even, as `round` and `np.round` do. -/
def roundHalfEven (q : ℚ) : ℤ :=
  if q - ⌊q⌋ < 1 / 2 then ⌊q⌋
  else if (1 : ℚ) / 2 < q - ⌊q⌋ then ⌊q⌋ + 1
  else if ⌊q⌋ % 2 = 0 then ⌊q⌋ else ⌊q⌋ + 1

/-- Python `round(q, 2)`: banker's rounding to two decimal places. -/
def round2 (q : ℚ) : ℚ := (roundHalfEven (q * 100) : ℚ) / 100

/-- The trend computation at src/main.py lines 160-163:
`recent_weeks = weekly_totals[-12:]` and the label is `"Increasing"` exactly
when `recent_weeks[-1] > np.mean(recent_weeks[:-1])`.  For a single-element
window the mean is NaN and the comparison is `False`. -/
def trendOf (totals : List ℚ) : String :=
  let recent := takeLast 12 totals
  if gtNaN (pyLast recent) (npMeanOpt recent.dropLast) then "Increasing"
  else "Decreasing"

/-- `DataProcessor.calculate_statistics` (src/main.py lines 145-165).  The
emptiness guard reflects that `max(weekly_totals)` raises `ValueError` on an
empty series before any statistic is returned. -/
def calculate_statistics (d : ActivityDataset) : Except AnalyzerError StatsReport :=
  match extractTotals d.activity_by_week with
  | .error e => .error e
  | .ok totals =>
    if totals = [] then .error .emptyDataset
    else
      let tq := qcast totals
      .ok { total_commits := d.total_commits
            avg_weekly := round2 (npMean tq)
            median_weekly := npMedian tq
            highest := pyMax totals
            lowest := pyMin totals
            std_sq := npVar tq
            trend := trendOf tq }

/-- A contributor entry restricted to the fields the export reads. -/
structure Contributor where
  login : String
  contributions : ℕ
deriving DecidableEq

/-- One row of the export table (src/main.py lines 174-197). -/
structure ExportRow where
  category : String
  item : String
  value : String
  date : String
deriving DecidableEq

/-- The message truncation at src/main.py line 195:
`commit['message'][:100] + '...' if len(commit['message']) > 100 else
commit['message']`. -/
def truncMsg (msg : String) : String :=
  if 100 < msg.data.length then String.mk (msg.data.take 100) ++ "..." else msg

/-- The metadata loop at src/main.py lines 173-179; `i` numbers the
`datetime.now()` calls made so far in this invocation. -/
def metaRows (clock : ℕ → Date) : ℕ → List (String × String) → List ExportRow
  | _, [] => []
  | i, kv :: rest =>
    { category := "Metadata", item := kv.1, value := kv.2, date := fmtDate (clock i) } ::
      metaRows clock (i + 1) rest

/-- The contributor loop at src/main.py lines 182-188 (over the already-taken
first ten contributors); `i` continues the `datetime.now()` call numbering. -/
def contribRows (clock : ℕ → Date) : ℕ → List Contributor → List ExportRow
  | _, [] => []
  | i, c :: rest =>
    { category := "Contributors", item := c.login, value := toString c.contributions,
      date := fmtDate (clock i) } :: contribRows clock (i + 1) rest

/-- The commit loop at src/main.py lines 191-197: the date column carries the
record's own parsed commit date, not the clock. -/
def commitRows : List CommitRecord → List ExportRow
  | [] => []
  | c :: rest =>
    { category := "Commits", item := c.sha, value := truncMsg c.message,
      date := fmtDate c.date } :: commitRows rest

/-- `DataProcessor.prepare_dataframe_for_export` (src/main.py lines 167-199):
all metadata fields, the first 10 contributors, the first 20 commit records, in
that order.  `clock k` is the value read by the `k`-th `datetime.now()` call of
this invocation (one call per metadata row and one per contributor row). -/
def prepare_dataframe_for_export (md : List (String × String)) (cs : List Contributor)
    (d : ActivityDataset) (clock : ℕ → Date) : List ExportRow :=
  metaRows clock 0 md ++ contribRows clock md.length (cs.take 10) ++
    commitRows (d.commit_history.take 20)

/-- Weekly records with the given numeric totals (week stamps irrelevant to the
claims). -/
def mkWeeks (ts : List ℤ) : List RawWeek :=
  ts.map (fun n => { week := 0, total := some (.num n) })

/-- The worked statistics example: weekly totals `[2,4,4,4,5,5,7,9]`. -/
def exDS : ActivityDataset :=
  { weekly_commits := 40, activity_by_week := mkWeeks [2, 4, 4, 4, 5, 5, 7, 9],
    commit_history := [], total_commits := 0 }

/-- The report `calculate_statistics` produces on `exDS`. -/
def exReport : StatsReport :=
  { total_commits := 0, avg_weekly := 5, median_weekly := 9 / 2, highest := 9,
    lowest := 2, std_sq := 4, trend := "Increasing" }

/-- A dataset with a different weekly series but the same `total_commits` as
`exDS`. -/
def exDS2 : ActivityDataset :=
  { weekly_commits := 6, activity_by_week := mkWeeks [1, 2, 3],
    commit_history := [], total_commits := 0 }

/-- A dataset whose trailing trend window has exactly one element. -/
def singleDS : ActivityDataset :=
  { weekly_commits := 5, activity_by_week := mkWeeks [5],
    commit_history := [], total_commits := 3 }

/-- A dataset realizing the spec's increasing-trend slice. -/
def upDS : ActivityDataset :=
  { weekly_commits := 43,
    activity_by_week := mkWeeks [3, 3, 3, 3, 3, 3, 3, 3, 3, 3, 3, 10],
    commit_history := [], total_commits := 0 }

/-- The spec's decreasing-trend slice, as rationals. -/
def decSlice : List ℚ := [10, 3, 3, 3, 3, 3, 3, 3, 3, 3, 3, 3]

/-- Five raw commit records of which exactly two (the second and the fourth)
have malformed timestamps: one is not a timestamp at all, the other has
month 13. -/
def commits5 : List RawCommit :=
  [{ date := "2024-01-05T10:00:00Z", message := "m1", author := "a1", sha := "sha1111111111" },
   { date := "not-a-date", message := "m2", author := "a2", sha := "sha2222" },
   { date := "2024-01-03T09:30:00Z", message := "m3", author := "a3", sha := "sha3" },
   { date := "2024-13-01T00:00:00Z", message := "m4", author := "a4", sha := "sha4" },
   { date := "2024-01-01T00:00:00Z", message := "m5", author := "a5", sha := "sha5" }]

/-- A weekly record whose `"total"` is a string, hence non-numeric. -/
def badWeek : RawWeek := { week := 0, total := some (.str "n/a") }

/-- A projection-time clock value for the export examples. -/
def t0 : Date := ⟨2024, 1, 1, 0, 0, 0⟩

/-- A commit timestamp distinct from `t0`. -/
def c7date : Date := ⟨2023, 5, 6, 7, 8, 9⟩

/-- A dataset with one commit record, for the export examples. -/
def c7ds : ActivityDataset :=
  { weekly_commits := 1, activity_by_week := mkWeeks [1],
    commit_history := [{ date := c7date, message := "fix bug", author := "alice", sha := "abc1234" }],
    total_commits := 1 }

/-- A one-field metadata record for the export examples. -/
def c7md : List (String × String) := [("name", "demo")]

/-- Three metadata fields. -/
def md3 : List (String × String) := [("name", "x"), ("stars", "5"), ("forks", "2")]

/-- Twelve contributors. -/
def cs12 : List Contributor :=
  (List.range 12).map (fun i => { login := "user" ++ toString i, contributions := i })

/-- A dataset with 25 commit records. -/
def ds25 : ActivityDataset :=
  { weekly_commits := 1, activity_by_week := mkWeeks [1],
    commit_history := List.replicate 25
      { date := c7date, message := "m", author := "a", sha := "s" },
    total_commits := 25 }

/-- A 150-character commit message. -/
def a150 : String := String.mk (List.replicate 150 'a')

/-- A 50-character commit message. -/
def a50 : String := String.mk (List.replicate 50 'a')

/-- A dataset with no weekly points at all. -/
def emptyADS : ActivityDataset :=
  { weekly_commits := 0, activity_by_week := [], commit_history := [], total_commits := 0 }

/-- The report `calculate_statistics` produces on `exDS2`. -/
def exReport2 : StatsReport :=
  { total_commits := 0, avg_weekly := 2, median_weekly := 2, highest := 3,
    lowest := 1, std_sq := 2 / 3, trend := "Increasing" }

/-- A single valid weekly record, for the normalization examples. -/
def w1 : List RawWeek := [{ week := 0, total := some (.num 1) }]

/-- The dataset built by `fetch_commit_activity` from `w1` and `commits5`. -/
def ds5res : ActivityDataset :=
  { weekly_commits := 1, activity_by_week := w1,
    commit_history := commits5.filterMap parse_commit, total_commits := 5 }

/-- The metadata row produced for `c7md` under the constant clock `t0`. -/
def c7row : ExportRow :=
  { category := "Metadata", item := "name", value := "demo", date := fmtDate t0 }

/-- The commit row produced for the single commit of `c7ds`. -/
def c9row : ExportRow :=
  { category := "Commits", item := "abc1234", value := "fix bug", date := fmtDate c7date }

instance {ε α : Type} [DecidableEq ε] [DecidableEq α] : DecidableEq (Except ε α) :=
  fun a b =>
    match a, b with
    | .ok x, .ok y =>
        if h : x = y then .isTrue (by rw [h]) else .isFalse (fun hc => h (Except.ok.inj hc))
    | .error x, .error y =>
        if h : x = y then .isTrue (by rw [h]) else .isFalse (fun hc => h (Except.error.inj hc))
    | .ok _, .error _ => .isFalse (fun hc => Except.noConfusion hc)
    | .error _, .ok _ => .isFalse (fun hc => Except.noConfusion hc)

/-! ### Helper lemmas -/

theorem extractTotals_mkWeeks (ts : List ℤ) : extractTotals (mkWeeks ts) = .ok ts := by
  induction ts with
  | nil => rfl
  | cons t ts ih =>
      show (extractTotals (mkWeeks ts)).map (fun l => t :: l) = .ok (t :: ts)
      rw [ih]
      rfl

theorem extractTotals_error (ws : List RawWeek) (h : ∃ w ∈ ws, isNumTotal w = false) :
    extractTotals ws = .error .malformedActivity := by
  induction ws with
  | nil => simp at h
  | cons w ws ih =>
      cases hw : w.total with
      | none => simp [extractTotals, hw]
      | some j =>
        cases j with
        | num n =>
            obtain ⟨v, hv, hbad⟩ := h
            rcases List.mem_cons.mp hv with h1 | h2
            · rw [h1] at hbad
              simp [isNumTotal, hw] at hbad
            · have herr := ih ⟨v, h2, hbad⟩
              simp [extractTotals, hw, herr, Except.map]
        | str s => simp [extractTotals, hw]
        | null => simp [extractTotals, hw]

theorem calculate_statistics_ok (d : ActivityDataset) (totals : List ℤ)
    (hex : extractTotals d.activity_by_week = .ok totals) (hne : totals ≠ []) :
    calculate_statistics d = .ok
      { total_commits := d.total_commits,
        avg_weekly := round2 (npMean (qcast totals)),
        median_weekly := npMedian (qcast totals),
        highest := pyMax totals,
        lowest := pyMin totals,
        std_sq := npVar (qcast totals),
        trend := trendOf (qcast totals) } := by
  simp only [calculate_statistics, hex, if_neg hne]

theorem calc_total (d : ActivityDataset) (r : StatsReport)
    (h : calculate_statistics d = .ok r) : r.total_commits = d.total_commits := by
  cases hex : extractTotals d.activity_by_week with
  | error e =>
      have hc : calculate_statistics d = .error e := by
        simp only [calculate_statistics, hex]
      rw [hc] at h
      exact absurd h (by simp)
  | ok ts =>
      by_cases hts : ts = []
      · have hc : calculate_statistics d = .error .emptyDataset := by
          simp only [calculate_statistics, hex, if_pos hts]
        rw [hc] at h
        exact absurd h (by simp)
      · have hc := calculate_statistics_ok d ts hex hts
        rw [hc] at h
        injection h with h'
        rw [← h']

theorem foldl_max_mem : ∀ (xs : List ℤ) (x : ℤ), xs.foldl max x ∈ x :: xs
  | [], _ => by simp
  | y :: ys, x => by
      rw [List.foldl_cons]
      rcases List.mem_cons.mp (foldl_max_mem ys (max x y)) with h1 | h2
      · rcases max_choice x y with hx | hy
        · rw [h1, hx]; exact List.mem_cons_self _ _
        · rw [h1, hy]; exact List.mem_cons.mpr (Or.inr (List.mem_cons_self _ _))
      · exact List.mem_cons.mpr (Or.inr (List.mem_cons.mpr (Or.inr h2)))

theorem le_foldl_max_seed : ∀ (xs : List ℤ) (x : ℤ), x ≤ xs.foldl max x
  | [], x => le_refl x
  | y :: ys, x => by
      rw [List.foldl_cons]
      exact le_trans (le_max_left x y) (le_foldl_max_seed ys (max x y))

theorem le_foldl_max : ∀ (xs : List ℤ) (x z : ℤ), z ∈ x :: xs → z ≤ xs.foldl max x
  | [], x, z, hz => by
      simp at hz
      exact le_of_eq hz
  | y :: ys, x, z, hz => by
      rw [List.foldl_cons]
      rcases List.mem_cons.mp hz with h1 | h2
      · exact le_trans (le_of_eq h1)
          (le_trans (le_max_left x y) (le_foldl_max_seed ys (max x y)))
      · rcases List.mem_cons.mp h2 with h3 | h4
        · exact le_trans (le_of_eq h3)
            (le_trans (le_max_right x y) (le_foldl_max_seed ys (max x y)))
        · exact le_foldl_max ys (max x y) z (List.mem_cons.mpr (Or.inr h4))

theorem foldl_min_mem : ∀ (xs : List ℤ) (x : ℤ), xs.foldl min x ∈ x :: xs
  | [], _ => by simp
  | y :: ys, x => by
      rw [List.foldl_cons]
      rcases List.mem_cons.mp (foldl_min_mem ys (min x y)) with h1 | h2
      · rcases min_choice x y with hx | hy
        · rw [h1, hx]; exact List.mem_cons_self _ _
        · rw [h1, hy]; exact List.mem_cons.mpr (Or.inr (List.mem_cons_self _ _))
      · exact List.mem_cons.mpr (Or.inr (List.mem_cons.mpr (Or.inr h2)))

theorem foldl_min_seed_le : ∀ (xs : List ℤ) (x : ℤ), xs.foldl min x ≤ x
  | [], x => le_refl x
  | y :: ys, x => by
      rw [List.foldl_cons]
      exact le_trans (foldl_min_seed_le ys (min x y)) (min_le_left x y)

theorem foldl_min_le : ∀ (xs : List ℤ) (x z : ℤ), z ∈ x :: xs → xs.foldl min x ≤ z
  | [], x, z, hz => by
      simp at hz
      exact le_of_eq hz.symm
  | y :: ys, x, z, hz => by
      rw [List.foldl_cons]
      rcases List.mem_cons.mp hz with h1 | h2
      · exact le_trans
          (le_trans (foldl_min_seed_le ys (min x y)) (min_le_left x y)) (le_of_eq h1.symm)
      · rcases List.mem_cons.mp h2 with h3 | h4
        · exact le_trans
            (le_trans (foldl_min_seed_le ys (min x y)) (min_le_right x y)) (le_of_eq h3.symm)
        · exact foldl_min_le ys (min x y) z (List.mem_cons.mpr (Or.inr h4))

theorem filterMap_parse (cs : List RawCommit) :
    cs.filterMap parse_commit =
      (cs.filter (fun c => (parseTimestamp c.date).isSome)).map
        (fun c => { date := (parseTimestamp c.date).getD default,
                    message := c.message, author := c.author,
                    sha := String.mk (c.sha.data.take 7) }) := by
  induction cs with
  | nil => rfl
  | cons c cs ih =>
      cases hp : parseTimestamp c.date with
      | none => simp [List.filterMap_cons, List.filter_cons, parse_commit, hp, ih]
      | some dt => simp [List.filterMap_cons, List.filter_cons, parse_commit, hp, ih]

theorem trendOf_spec (tq : List ℚ) (hlen : 2 ≤ tq.length) :
    (trendOf tq = "Increasing" ↔
      ((takeLast 12 tq).dropLast).sum / (((takeLast 12 tq).dropLast).length : ℚ) <
        pyLast (takeLast 12 tq)) ∧
    (trendOf tq = "Increasing" ∨ trendOf tq = "Decreasing") := by
  have hlen2 : 2 ≤ (takeLast 12 tq).length := by
    simp only [takeLast, List.length_drop]
    omega
  have hne : (takeLast 12 tq).dropLast ≠ [] := by
    intro hnil
    have h' := congrArg List.length hnil
    rw [List.length_dropLast] at h'
    simp only [List.length_nil] at h'
    omega
  have hred : trendOf tq =
      if npMean ((takeLast 12 tq).dropLast) < pyLast (takeLast 12 tq)
      then "Increasing" else "Decreasing" := by
    simp only [trendOf, npMeanOpt, if_neg hne, gtNaN, decide_eq_true_eq]
  rw [hred]
  by_cases hc : npMean ((takeLast 12 tq).dropLast) < pyLast (takeLast 12 tq)
  · rw [if_pos hc]
    exact ⟨⟨fun _ => by simpa [npMean] using hc, fun _ => rfl⟩, Or.inl rfl⟩
  · rw [if_neg hc]
    refine ⟨⟨fun hcon => absurd hcon (by decide), fun hlt => ?_⟩, Or.inr rfl⟩
    exact absurd (by simpa [npMean] using hlt) hc

theorem trendOf_cons_of_len12 (c : ℚ) (l : List ℚ) (h : l.length = 12) :
    trendOf (c :: l) = trendOf l := by
  have h1 : takeLast 12 (c :: l) = l := by
    show List.drop ((c :: l).length - 12) (c :: l) = l
    rw [List.length_cons, h]
    rfl
  have h2 : takeLast 12 l = l := by
    show List.drop (l.length - 12) l = l
    rw [h]
    rfl
  unfold trendOf
  rw [h1, h2]

theorem metaRows_length (clock : ℕ → Date) (md : List (String × String)) :
    ∀ i, (metaRows clock i md).length = md.length := by
  induction md with
  | nil => intro i; rfl
  | cons kv rest ih => intro i; simp [metaRows, ih]

theorem contribRows_length (clock : ℕ → Date) (cs : List Contributor) :
    ∀ i, (contribRows clock i cs).length = cs.length := by
  induction cs with
  | nil => intro i; rfl
  | cons c rest ih => intro i; simp [contribRows, ih]

theorem commitRows_length (l : List CommitRecord) : (commitRows l).length = l.length := by
  induction l with
  | nil => rfl
  | cons c rest ih => simp [commitRows, ih]

theorem metaRows_map_category (clock : ℕ → Date) (md : List (String × String)) :
    ∀ i, (metaRows clock i md).map (fun r => r.category) =
      List.replicate md.length "Metadata" := by
  induction md with
  | nil => intro i; rfl
  | cons kv rest ih => intro i; simp [metaRows, List.replicate_succ, ih]

theorem contribRows_map_category (clock : ℕ → Date) (cs : List Contributor) :
    ∀ i, (contribRows clock i cs).map (fun r => r.category) =
      List.replicate cs.length "Contributors" := by
  induction cs with
  | nil => intro i; rfl
  | cons c rest ih => intro i; simp [contribRows, List.replicate_succ, ih]

theorem commitRows_map_category (l : List CommitRecord) :
    (commitRows l).map (fun r => r.category) = List.replicate l.length "Commits" := by
  induction l with
  | nil => rfl
  | cons c rest ih => simp [commitRows, List.replicate_succ, ih]

theorem metaRows_map_item (clock : ℕ → Date) (md : List (String × String)) :
    ∀ i, (metaRows clock i md).map (fun r => r.item) = md.map Prod.fst := by
  induction md with
  | nil => intro i; rfl
  | cons kv rest ih => intro i; simp [metaRows, ih]

theorem contribRows_map_item (clock : ℕ → Date) (cs : List Contributor) :
    ∀ i, (contribRows clock i cs).map (fun r => r.item) = cs.map Contributor.login := by
  induction cs with
  | nil => intro i; rfl
  | cons c rest ih => intro i; simp [contribRows, ih]

theorem commitRows_map_item (l : List CommitRecord) :
    (commitRows l).map (fun r => r.item) = l.map CommitRecord.sha := by
  induction l with
  | nil => rfl
  | cons c rest ih => simp [commitRows, ih]

theorem mem_metaRows (clock : ℕ → Date) :
    ∀ (md : List (String × String)) (i : ℕ) (row : ExportRow),
      row ∈ metaRows clock i md →
      row.category = "Metadata" ∧ ∃ k, row.date = fmtDate (clock k)
  | [], _, _, h => by simp [metaRows] at h
  | kv :: rest, i, row, h => by
      rcases List.mem_cons.mp h with h1 | h2
      · subst h1
        exact ⟨rfl, i, rfl⟩
      · exact mem_metaRows clock rest (i + 1) row h2

theorem mem_contribRows (clock : ℕ → Date) :
    ∀ (cs : List Contributor) (i : ℕ) (row : ExportRow),
      row ∈ contribRows clock i cs →
      row.category = "Contributors" ∧ ∃ k, row.date = fmtDate (clock k)
  | [], _, _, h => by simp [contribRows] at h
  | c :: rest, i, row, h => by
      rcases List.mem_cons.mp h with h1 | h2
      · subst h1
        exact ⟨rfl, i, rfl⟩
      · exact mem_contribRows clock rest (i + 1) row h2

theorem mem_commitRows :
    ∀ (l : List CommitRecord) (row : ExportRow), row ∈ commitRows l →
      ∃ c ∈ l, row = { category := "Commits", item := c.sha,
                       value := truncMsg c.message, date := fmtDate c.date }
  | [], _, h => by simp [commitRows] at h
  | c :: rest, row, h => by
      rcases List.mem_cons.mp h with h1 | h2
      · exact ⟨c, List.mem_cons_self _ _, h1⟩
      · obtain ⟨c', hc', he⟩ := mem_commitRows rest row h2
        exact ⟨c', List.mem_cons.mpr (Or.inr hc'), he⟩

/-! ### Claim theorems

The arithmetic of `Rat` is `@[irreducible]` in this toolchain; concrete
evaluation of the embedded functions by `decide` needs it reducible again
within this development. -/

attribute [local semireducible] Rat.mul Rat.inv Rat.add Rat.sub Rat.ofScientific

/-- C1: for every dataset whose weekly totals sequence has length at least 2,
the trend label of `calculate_statistics` is `"Increasing"` exactly when the
final element of the last-12 slice strictly exceeds the arithmetic mean of the
other elements of that slice, and `"Decreasing"` otherwise (ties decrease); in
particular slice `[3,…,3,10]` is labelled `"Increasing"`, and with a
thirteenth-from-last element present only the last 12 elements influence the
label. -/
theorem C1_trend_classification (d : ActivityDataset) (totals : List ℤ)
    (hex : extractTotals d.activity_by_week = .ok totals) (hlen : 2 ≤ totals.length) :
    (∃ r, calculate_statistics d = .ok r ∧
      (r.trend = "Increasing" ↔
        ((takeLast 12 (qcast totals)).dropLast).sum /
            (((takeLast 12 (qcast totals)).dropLast).length : ℚ) <
          pyLast (takeLast 12 (qcast totals))) ∧
      (r.trend = "Increasing" ∨ r.trend = "Decreasing")) ∧
    trendOf [3, 3, 3, 3, 3, 3, 3, 3, 3, 3, 3, 10] = "Increasing" ∧
    (∀ c : ℚ, trendOf (c :: decSlice) = "Decreasing") := by
  have hne : totals ≠ [] := by
    intro h'
    rw [h'] at hlen
    simp at hlen
  have hq : 2 ≤ (qcast totals).length := by
    unfold qcast
    rw [List.length_map]
    exact hlen
  obtain ⟨hiff, hor⟩ := trendOf_spec (qcast totals) hq
  refine ⟨⟨_, calculate_statistics_ok d totals hex hne, hiff, hor⟩, by decide, ?_⟩
  intro c
  rw [trendOf_cons_of_len12 c decSlice (by decide)]
  decide

/-- C1 witness: the hypotheses hold and the conclusion follows at the concrete
dataset `upDS`, whose weekly totals are `[3,…,3,10]`. -/
theorem C1_trend_classification_witness :
    extractTotals upDS.activity_by_week = .ok [3, 3, 3, 3, 3, 3, 3, 3, 3, 3, 3, 10] ∧
    2 ≤ ([3, 3, 3, 3, 3, 3, 3, 3, 3, 3, 3, 10] : List ℤ).length ∧
    ∃ r, calculate_statistics upDS = .ok r ∧ r.trend = "Increasing" := by
  have h := C1_trend_classification upDS [3, 3, 3, 3, 3, 3, 3, 3, 3, 3, 3, 10]
    (by rfl) (by decide)
  obtain ⟨⟨r, hr, hiff, hor⟩, hup, hdec⟩ := h
  exact ⟨by rfl, by decide, r, hr, hiff.mpr (by decide)⟩

/-- C2: on a dataset whose trailing trend window has exactly one element the
source does NOT fail: `np.mean` of the empty slice is NaN, the comparison
against NaN is `False`, and a report with trend `"Decreasing"` is returned.
This theorem evaluates the code at the failing input of the claim. -/
theorem C2_single_window_trend :
    calculate_statistics singleDS =
      .ok { total_commits := 3, avg_weekly := 5, median_weekly := 5, highest := 5,
            lowest := 5, std_sq := 0, trend := "Decreasing" } := by
  decide

/-- C3: whenever normalization succeeds, the commit history consists of exactly
the raw records whose timestamp parses in the fixed `YYYY-MM-DDTHH:MM:SSZ`
format, in input order, while `total_commits` counts the raw records before
elision; in particular 5 records with 2 malformed timestamps yield 3 commit
records and `total_commits = 5`. -/
theorem C3_commit_normalization (ws : List RawWeek) (cs : List RawCommit)
    (d : ActivityDataset) (h : fetch_commit_activity ws cs = .ok d) :
    (d.commit_history =
      (cs.filter (fun c => (parseTimestamp c.date).isSome)).map
        (fun c => { date := (parseTimestamp c.date).getD default,
                    message := c.message, author := c.author,
                    sha := String.mk (c.sha.data.take 7) }) ∧
     d.total_commits = cs.length) ∧
    (fetch_commit_activity w1 commits5).map
      (fun e => (e.commit_history.length, e.total_commits)) = .ok (3, 5) := by
  refine ⟨?_, by decide⟩
  unfold fetch_commit_activity at h
  cases hex : extractTotals ws with
  | error e =>
      rw [hex] at h
      exact absurd h (by simp)
  | ok ts =>
      rw [hex] at h
      injection h with h'
      rw [← h']
      exact ⟨filterMap_parse cs, rfl⟩

/-- C3 witness: the theorem applied to the concrete five-record page. -/
theorem C3_commit_normalization_witness :
    ds5res.commit_history =
      (commits5.filter (fun c => (parseTimestamp c.date).isSome)).map
        (fun c => { date := (parseTimestamp c.date).getD default,
                    message := c.message, author := c.author,
                    sha := String.mk (c.sha.data.take 7) }) ∧
    ds5res.total_commits = commits5.length :=
  (C3_commit_normalization w1 commits5 ds5res (by rfl)).1

/-- C4: a raw weekly record with a missing or non-numeric total makes the whole
normalization fail with `malformedActivity` instead of coercing the value to
zero or returning a dataset. -/
theorem C4_malformed_total (ws : List RawWeek) (cs : List RawCommit)
    (h : ∃ w ∈ ws, isNumTotal w = false) :
    fetch_commit_activity ws cs = .error .malformedActivity := by
  unfold fetch_commit_activity
  rw [extractTotals_error ws h]

/-- C4 witness: one weekly record with a string total aborts the build. -/
theorem C4_malformed_total_witness :
    (∃ w ∈ [badWeek], isNumTotal w = false) ∧
    fetch_commit_activity [badWeek] [] = .error .malformedActivity :=
  ⟨by decide, C4_malformed_total [badWeek] [] (by decide)⟩

/-- C5: on an empty weekly series `calculate_statistics` fails (the source
raises `ValueError` at `max()` of the empty sequence, modelled as
`emptyDataset`) and produces no statistics. -/
theorem C5_empty_dataset (d : ActivityDataset) (h : d.activity_by_week = []) :
    calculate_statistics d = .error .emptyDataset := by
  unfold calculate_statistics
  rw [h]
  rfl

/-- C5 witness: the theorem applied to a concrete empty dataset. -/
theorem C5_empty_dataset_witness :
    emptyADS.activity_by_week = [] ∧
    calculate_statistics emptyADS = .error .emptyDataset :=
  ⟨rfl, C5_empty_dataset emptyADS rfl⟩

/-- C6 counterexample: for weekly totals `[2,4,4,4,5,5,7,9]` the population
standard deviation the code computes is exactly `2` (its square is the stored
`std_sq = 4`, and `round(2, 2) = 2.0`), which is not approximately `2.06`:
it differs from `2.06` by more than `1/100`. -/
theorem C6_statistics_cex :
    calculate_statistics exDS = .ok exReport ∧
    (0 : ℚ) ≤ 2 ∧ (2 : ℚ) ^ 2 = exReport.std_sq ∧ round2 2 = 2 ∧
    (2 : ℚ) ≠ 2.06 ∧ ¬(|(2 : ℚ) - 2.06| ≤ 1 / 100) := by
  exact ⟨by decide, by decide, by decide, by decide, by decide, by decide⟩

/-- C6 (amended: the example standard deviation is exactly 2.0, not ≈2.06):
for every nonempty weekly totals sequence, `calculate_statistics` returns the
population mean rounded to 2 decimals, the median (middle of a sorted
permutation, averaging the two middles for even length) unrounded, the exact
integer maximum and minimum, and the population variance as the square of the
pre-rounding standard deviation; for `[2,4,4,4,5,5,7,9]` it returns mean 5.0,
median 4.5, max 9, min 2, and standard deviation exactly 2. -/
theorem C6_statistics (d : ActivityDataset) (totals : List ℤ)
    (hex : extractTotals d.activity_by_week = .ok totals) (hne : totals ≠ []) :
    (∃ r, calculate_statistics d = .ok r ∧
      r.avg_weekly = round2 ((qcast totals).sum / ((totals.length : ℕ) : ℚ)) ∧
      (∃ srt : List ℚ, (qcast totals).Perm srt ∧ srt.Sorted (· ≤ ·) ∧
        r.median_weekly =
          (if srt.length % 2 = 1 then srt.getD (srt.length / 2) 0
           else (srt.getD (srt.length / 2 - 1) 0 + srt.getD (srt.length / 2) 0) / 2)) ∧
      r.highest ∈ totals ∧ (∀ t ∈ totals, t ≤ r.highest) ∧
      r.lowest ∈ totals ∧ (∀ t ∈ totals, r.lowest ≤ t) ∧
      r.std_sq = ((qcast totals).map
          (fun x => (x - (qcast totals).sum / ((totals.length : ℕ) : ℚ)) ^ 2)).sum /
        ((totals.length : ℕ) : ℚ)) ∧
    (calculate_statistics exDS = .ok exReport ∧ exReport.avg_weekly = 5 ∧
      exReport.median_weekly = 9 / 2 ∧ exReport.highest = 9 ∧ exReport.lowest = 2 ∧
      (0 : ℚ) ≤ 2 ∧ (2 : ℚ) ^ 2 = exReport.std_sq ∧ round2 2 = 2) := by
  have hcalc := calculate_statistics_ok d totals hex hne
  refine ⟨⟨_, hcalc, ?_, ?_, ?_, ?_, ?_, ?_, ?_⟩,
    by decide, by decide, by decide, by decide, by decide, by decide, by decide, by decide⟩
  · simp [npMean, qcast]
  · refine ⟨(qcast totals).insertionSort (· ≤ ·),
      (List.perm_insertionSort _ _).symm, List.sorted_insertionSort _ _, ?_⟩
    simp [npMedian, List.length_insertionSort]
  · cases totals with
    | nil => exact absurd rfl hne
    | cons x xs => exact foldl_max_mem xs x
  · intro t ht
    cases totals with
    | nil => simp at ht
    | cons x xs => exact le_foldl_max xs x t ht
  · cases totals with
    | nil => exact absurd rfl hne
    | cons x xs => exact foldl_min_mem xs x
  · intro t ht
    cases totals with
    | nil => simp at ht
    | cons x xs => exact foldl_min_le xs x t ht
  · simp [npVar, npMean, qcast]

/-- C6 witness: the theorem applied to the worked example dataset. -/
theorem C6_statistics_witness :
    extractTotals exDS.activity_by_week = .ok [2, 4, 4, 4, 5, 5, 7, 9] ∧
    calculate_statistics exDS = .ok exReport :=
  ⟨by rfl,
    (C6_statistics exDS [2, 4, 4, 4, 5, 5, 7, 9] (by rfl) (by decide)).2.1⟩

/-- C7 counterexample: in one invocation with batch clock `t0`, the metadata
row carries `fmtDate t0` but the commit row carries the record's own commit
timestamp, which differs — so `captured_at` is neither identical across all
rows nor never the per-record commit timestamp. -/
theorem C7_captured_at_cex :
    prepare_dataframe_for_export c7md [] c7ds (fun _ => t0) =
      [{ category := "Metadata", item := "name", value := "demo", date := fmtDate t0 },
       { category := "Commits", item := "abc1234", value := "fix bug",
         date := fmtDate c7date }] ∧
    fmtDate c7date ≠ fmtDate t0 := by
  exact ⟨by decide, by decide⟩

/-- C7 (amended: metadata and contributor rows carry the projection wall-clock
reading, while commit rows carry the per-record commit timestamp): with a
clock that is constant during the invocation, every metadata or contributor
row's date is that clock value, and every commit row's date is the formatted
date of a commit record of the first 20. -/
theorem C7_captured_at (md : List (String × String)) (cs : List Contributor)
    (d : ActivityDataset) (t : Date) (row : ExportRow)
    (h : row ∈ prepare_dataframe_for_export md cs d (fun _ => t)) :
    (row.category = "Metadata" ∨ row.category = "Contributors" ∨ row.category = "Commits") ∧
    (row.category = "Metadata" ∨ row.category = "Contributors" → row.date = fmtDate t) ∧
    (row.category = "Commits" →
      ∃ c ∈ d.commit_history.take 20, row.date = fmtDate c.date ∧ row.item = c.sha) := by
  unfold prepare_dataframe_for_export at h
  rcases List.mem_append.mp h with h1 | h2
  · rcases List.mem_append.mp h1 with hm | hc
    · obtain ⟨hcat, k, hdate⟩ := mem_metaRows (fun _ => t) md 0 row hm
      refine ⟨Or.inl hcat, fun _ => hdate, fun hc2 => ?_⟩
      rw [hcat] at hc2
      exact absurd hc2 (by decide)
    · obtain ⟨hcat, k, hdate⟩ := mem_contribRows (fun _ => t) (cs.take 10) md.length row hc
      refine ⟨Or.inr (Or.inl hcat), fun _ => hdate, fun hc2 => ?_⟩
      rw [hcat] at hc2
      exact absurd hc2 (by decide)
  · obtain ⟨c, hcmem, he⟩ := mem_commitRows (d.commit_history.take 20) row h2
    have hcat : row.category = "Commits" := by rw [he]
    refine ⟨Or.inr (Or.inr hcat), fun hor => ?_, fun _ => ⟨c, hcmem, by rw [he], by rw [he]⟩⟩
    rcases hor with h' | h' <;> rw [hcat] at h'
    · exact absurd h' (by decide)
    · exact absurd h' (by decide)

/-- C7 witness: the theorem applied to a concrete invocation, showing the
metadata row carries the batch clock value. -/
theorem C7_captured_at_witness :
    c7row ∈ prepare_dataframe_for_export c7md [] c7ds (fun _ => t0) ∧
    c7row.date = fmtDate t0 :=
  ⟨by decide,
    (C7_captured_at c7md [] c7ds t0 c7row (by decide)).2.1 (Or.inl rfl)⟩

/-- C8: the export has one row per metadata field, then one row per contributor
for the first 10 contributors in input order, then one row per commit record
for the first 20 in input order; 3 metadata fields, 12 contributors and 25
commits yield exactly 33 rows. -/
theorem C8_export_row_counts (md : List (String × String)) (cs : List Contributor)
    (d : ActivityDataset) (clock : ℕ → Date) :
    ((prepare_dataframe_for_export md cs d clock).length =
      md.length + min 10 cs.length + min 20 d.commit_history.length) ∧
    ((prepare_dataframe_for_export md cs d clock).map (fun r => r.category) =
      List.replicate md.length "Metadata" ++
        List.replicate (min 10 cs.length) "Contributors" ++
        List.replicate (min 20 d.commit_history.length) "Commits") ∧
    ((prepare_dataframe_for_export md cs d clock).map (fun r => r.item) =
      md.map Prod.fst ++ (cs.take 10).map Contributor.login ++
        (d.commit_history.take 20).map CommitRecord.sha) ∧
    (prepare_dataframe_for_export md3 cs12 ds25 clock).length = 3 + 10 + 20 := by
  refine ⟨?_, ?_, ?_, ?_⟩
  · unfold prepare_dataframe_for_export
    rw [List.length_append, List.length_append, metaRows_length, contribRows_length,
      commitRows_length, List.length_take, List.length_take]
  · unfold prepare_dataframe_for_export
    rw [List.map_append, List.map_append, metaRows_map_category, contribRows_map_category,
      commitRows_map_category, List.length_take, List.length_take]
  · unfold prepare_dataframe_for_export
    rw [List.map_append, List.map_append, metaRows_map_item, contribRows_map_item,
      commitRows_map_item]
  · unfold prepare_dataframe_for_export
    rw [List.length_append, List.length_append, metaRows_length, contribRows_length,
      commitRows_length]
    rfl

set_option maxRecDepth 10000 in
/-- C9: every commit row's exported value is the message unchanged when it has
at most 100 characters, and its first 100 characters followed by the ellipsis
marker otherwise; a 150-character message is truncated to 103 characters and a
50-character message is untouched. -/
theorem C9_message_truncation (md : List (String × String)) (cs : List Contributor)
    (d : ActivityDataset) (clock : ℕ → Date) (row : ExportRow)
    (h : row ∈ prepare_dataframe_for_export md cs d clock)
    (hc : row.category = "Commits") :
    (∃ c ∈ d.commit_history.take 20,
      row.value = (if 100 < c.message.data.length
        then String.mk (c.message.data.take 100) ++ "..." else c.message)) ∧
    truncMsg a150 = String.mk (List.replicate 100 'a') ++ "..." ∧
    (truncMsg a150).data.length = 103 ∧
    truncMsg a50 = a50 ∧ a150.data.length = 150 ∧ a50.data.length = 50 := by
  refine ⟨?_, by decide, by decide, by decide, by decide, by decide⟩
  unfold prepare_dataframe_for_export at h
  rcases List.mem_append.mp h with h1 | h2
  · rcases List.mem_append.mp h1 with hm | hcb
    · obtain ⟨hcat, _⟩ := mem_metaRows clock md 0 row hm
      rw [hcat] at hc
      exact absurd hc (by decide)
    · obtain ⟨hcat, _⟩ := mem_contribRows clock (cs.take 10) md.length row hcb
      rw [hcat] at hc
      exact absurd hc (by decide)
  · obtain ⟨c, hcmem, he⟩ := mem_commitRows (d.commit_history.take 20) row h2
    exact ⟨c, hcmem, by rw [he]; rfl⟩

set_option maxRecDepth 10000 in
/-- C9 witness: the theorem applied to the concrete commit row of `c7ds`. -/
theorem C9_message_truncation_witness :
    c9row ∈ prepare_dataframe_for_export c7md [] c7ds (fun _ => t0) ∧
    c9row.category = "Commits" ∧
    truncMsg a150 = String.mk (List.replicate 100 'a') ++ "..." :=
  ⟨by decide, rfl,
    (C9_message_truncation c7md [] c7ds (fun _ => t0) c9row (by decide) rfl).2.1⟩

/-- C10: the report's `total_commits` equals the dataset's `total_commits`
field (the raw commit-page count); two datasets with equal `total_commits`
report the same value regardless of their weekly series, and the report is
invariant under the `weekly_commits` field (the sum of the weekly totals),
which never enters the statistics. -/
theorem C10_total_commits_independent (d₁ d₂ : ActivityDataset) (r₁ r₂ : StatsReport)
    (n : ℤ) (h₁ : calculate_statistics d₁ = .ok r₁) (h₂ : calculate_statistics d₂ = .ok r₂)
    (he : d₁.total_commits = d₂.total_commits) :
    r₁.total_commits = d₁.total_commits ∧ r₂.total_commits = d₂.total_commits ∧
    r₁.total_commits = r₂.total_commits ∧
    calculate_statistics { d₁ with weekly_commits := n } = .ok r₁ := by
  have t₁ := calc_total d₁ r₁ h₁
  have t₂ := calc_total d₂ r₂ h₂
  refine ⟨t₁, t₂, by rw [t₁, t₂, he], ?_⟩
  have hsame : calculate_statistics { d₁ with weekly_commits := n } =
      calculate_statistics d₁ := rfl
  rw [hsame, h₁]

/-- C10 witness: two concrete datasets with the same raw commit-page count but
different weekly series report the same total, and changing `weekly_commits`
changes nothing. -/
theorem C10_total_commits_independent_witness :
    calculate_statistics exDS = .ok exReport ∧
    calculate_statistics exDS2 = .ok exReport2 ∧
    exReport.total_commits = exReport2.total_commits ∧
    calculate_statistics { exDS with weekly_commits := 77 } = .ok exReport := by
  have h := C10_total_commits_independent exDS exDS2 exReport exReport2 77
    (by decide) (by decide) rfl
  exact ⟨by decide, by decide, h.2.2.1, h.2.2.2⟩

end GHA
